import Mathlib

/-!
# Verification of the VaultGuard crypto core

Shallow embedding of the cryptographic key-management and record-encryption
engine of the VaultGuard mobile app:

* `src/crypto/aes-gcm.ts` — `encryptData`, `decryptData`, `decryptObject`
  (AES-256-GCM via WebCrypto; the AES block cipher itself is an external
  platform primitive and is modelled as a parameter `E`, while the GCM
  counter-mode structure, tag handling and all surrounding plumbing are
  embedded concretely),
* `src/crypto/key-derivation.ts` — `deriveEncryptionKey`, `pbkdf2Sha256`,
  `verifyMasterPassword` (PBKDF2-SHA256 with a concrete SHA-256),
* `src/store/auth.store.ts` — the key-lifecycle state machine
  (`login`, `register`, `logout`, `loadSession`, `lockApp`, `unlockApp`),
* `src/app/(auth)/unlock.tsx` (`handleUnlock`) and `src/utils/device.ts`
  (`getDeviceId`) — the secure-store write sites around the unlock flow.

JavaScript strings are modelled as lists of Unicode scalar values
(`Str := List Nat`); byte buffers as `List Nat` with elements `< 256`.
`TextEncoder`/`TextDecoder` are embedded as a concrete UTF-8 codec and the
`base-64` package as a concrete base64 codec, with proved round trips.
-/

/-- JavaScript strings, as lists of Unicode scalar values. -/
abbrev Str := List Nat

/-- Byte buffers (`Uint8Array`), as lists of naturals `< 256`. -/
abbrev Bytes := List Nat

/-- All elements of a buffer are bytes. -/
abbrev isBytes (l : List Nat) : Prop := ∀ x ∈ l, x < 256

-- ===== UTF-8 codec (`TextEncoder` / `TextDecoder`) =====

/-- UTF-8 encoding of a single Unicode scalar value. -/
def utf8EncodeChar (c : Nat) : List Nat :=
  if c < 0x80 then [c]
  else if c < 0x800 then [0xC0 + c / 64, 0x80 + c % 64]
  else if c < 0x10000 then
    [0xE0 + c / 4096, 0x80 + c / 64 % 64, 0x80 + c % 64]
  else
    [0xF0 + c / 262144, 0x80 + c / 4096 % 64, 0x80 + c / 64 % 64, 0x80 + c % 64]

/-- Model of `TextEncoder.encode`: UTF-8 bytes of a string. -/
def textEncode (s : Str) : List Nat :=
  (s.map utf8EncodeChar).flatten

/-- Fuelled UTF-8 decoding step function (one unit of fuel per decoded
scalar value; a fuel of at least the byte length is always enough). -/
def utf8DecodeF : Nat → List Nat → List Nat
  | 0, _ => []
  | fuel + 1, l =>
    match l with
    | [] => []
    | b :: rest =>
      if b < 0x80 then b :: utf8DecodeF fuel rest
      else if b < 0xC0 then 0xFFFD :: utf8DecodeF fuel rest
      else if b < 0xE0 then
        if rest.length < 1 then [0xFFFD]
        else ((b % 32) * 64 + rest.headD 0 % 64) :: utf8DecodeF fuel (rest.drop 1)
      else if b < 0xF0 then
        if rest.length < 2 then [0xFFFD]
        else
          ((b % 16) * 4096 + (rest.headD 0 % 64) * 64 + (rest.drop 1).headD 0 % 64) ::
            utf8DecodeF fuel (rest.drop 2)
      else
        if rest.length < 3 then [0xFFFD]
        else
          ((b % 8) * 262144 + (rest.headD 0 % 64) * 4096 + ((rest.drop 1).headD 0 % 64) * 64 +
              (rest.drop 2).headD 0 % 64) ::
            utf8DecodeF fuel (rest.drop 3)

/-- Model of `TextDecoder.decode`: parse UTF-8 bytes back to scalar values
(invalid sequences yield U+FFFD, as the WebCrypto decoder does). -/
def utf8Decode (l : List Nat) : List Nat := utf8DecodeF l.length l

/-- A string is valid for encoding when every scalar value is in range. -/
abbrev validStr (s : Str) : Prop := ∀ c ∈ s, c < 0x110000

-- ===== Base64 codec (the `base-64` package used by both crypto files) =====

/-- Base64 alphabet: sextet to ASCII code. -/
def b64Char (n : Nat) : Nat :=
  if n < 26 then 65 + n
  else if n < 52 then 97 + (n - 26)
  else if n < 62 then 48 + (n - 52)
  else if n = 62 then 43
  else 47

/-- Inverse of the base64 alphabet (garbage maps to 0, as real decoders
do not reach it on well-formed input). -/
def b64Val (ch : Nat) : Nat :=
  if 65 ≤ ch ∧ ch ≤ 90 then ch - 65
  else if 97 ≤ ch ∧ ch ≤ 122 then ch - 97 + 26
  else if 48 ≤ ch ∧ ch ≤ 57 then ch - 48 + 52
  else if ch = 43 then 62
  else if ch = 47 then 63
  else 0

/-- Model of `base64Encode` of the `base-64` package, composed with
`bytesToBase64`'s byte-to-binary-string conversion: bytes to the codes of
the base64 text (61 is the code of the padding sign). -/
def b64encode : List Nat → List Nat
  | [] => []
  | [a] => [b64Char (a / 4), b64Char (a % 4 * 16), 61, 61]
  | [a, b] => [b64Char (a / 4), b64Char (a % 4 * 16 + b / 16), b64Char (b % 16 * 4), 61]
  | a :: b :: c :: rest =>
    b64Char (a / 4) :: b64Char (a % 4 * 16 + b / 16) :: b64Char (b % 16 * 4 + c / 64) ::
      b64Char (c % 64) :: b64encode rest

/-- Model of `base64Decode` of the `base-64` package, composed with
`base64ToBytes`'s `charCodeAt` loop: codes of base64 text back to bytes. -/
def b64decode : List Nat → List Nat
  | c1 :: c2 :: c3 :: c4 :: rest =>
    if c3 = 61 then [b64Val c1 * 4 + b64Val c2 / 16]
    else if c4 = 61 then
      [b64Val c1 * 4 + b64Val c2 / 16, b64Val c2 % 16 * 16 + b64Val c3 / 4]
    else
      (b64Val c1 * 4 + b64Val c2 / 16) :: (b64Val c2 % 16 * 16 + b64Val c3 / 4) ::
        (b64Val c3 % 4 * 64 + b64Val c4) :: b64decode rest
  | _ => []

-- ===== SHA-256 / HMAC / PBKDF2 (`crypto.subtle.deriveBits` with PBKDF2-SHA256) =====

/-- The 32-bit word arithmetic modulus. -/
def w32 : Nat := 4294967296

/-- Right rotation of a 32-bit word. -/
def rotr32 (n x : Nat) : Nat := (x >>> n ||| x <<< (32 - n)) % w32

def shaCh (x y z : Nat) : Nat := x &&& y ^^^ ((4294967295 ^^^ x % w32) &&& z)

def shaMaj (x y z : Nat) : Nat := x &&& y ^^^ x &&& z ^^^ y &&& z

def bigSigma0 (x : Nat) : Nat := rotr32 2 x ^^^ rotr32 13 x ^^^ rotr32 22 x

def bigSigma1 (x : Nat) : Nat := rotr32 6 x ^^^ rotr32 11 x ^^^ rotr32 25 x

def smallSigma0 (x : Nat) : Nat := rotr32 7 x ^^^ rotr32 18 x ^^^ x >>> 3

def smallSigma1 (x : Nat) : Nat := rotr32 17 x ^^^ rotr32 19 x ^^^ x >>> 10

/-- SHA-256 round constants. -/
def shaK : List Nat :=
  [1116352408, 1899447441, 3049323471, 3921009573, 961987163,
   1508970993, 2453635748, 2870763221, 3624381080, 310598401,
   607225278, 1426881987, 1925078388, 2162078206, 2614888103,
   3248222580, 3835390401, 4022224774, 264347078, 604807628,
   770255983, 1249150122, 1555081692, 1996064986, 2554220882,
   2821834349, 2952996808, 3210313671, 3336571891, 3584528711,
   113926993, 338241895, 666307205, 773529912, 1294757372,
   1396182291, 1695183700, 1986661051, 2177026350, 2456956037,
   2730485921, 2820302411, 3259730800, 3345764771, 3516065817,
   3600352804, 4094571909, 275423344, 430227734, 506948616,
   659060556, 883997877, 958139571, 1322822218, 1537002063,
   1747873779, 1955562222, 2024104815, 2227730452, 2361852424,
   2428436474, 2756734187, 3204031479, 3329325298]

/-- SHA-256 initial hash state. -/
structure Sha256State where
  a : Nat
  b : Nat
  c : Nat
  d : Nat
  e : Nat
  f : Nat
  g : Nat
  h : Nat

def sha256Init : Sha256State :=
  ⟨1779033703, 3144134277, 1013904242, 2773480762, 1359893119, 2600822924, 528734635, 1541459225⟩

/-- Big-endian split of a 32-bit word into 4 bytes. -/
def word32Bytes (x : Nat) : List Nat :=
  [x / 16777216 % 256, x / 65536 % 256, x / 256 % 256, x % 256]

/-- Combine 4 big-endian bytes into a word. -/
def word32Of (a b c d : Nat) : Nat := a * 16777216 + b * 65536 + c * 256 + d

/-- Split a 64-byte block into 16 big-endian words. -/
def blockWords : List Nat → List Nat
  | a :: b :: c :: d :: rest => word32Of a b c d :: blockWords rest
  | _ => []

/-- Extend 16 words to the 64-word message schedule. -/
def shaSchedule (ws : List Nat) : List Nat :=
  (List.range 48).foldl
    (fun w _ =>
      w ++ [(smallSigma1 (w.getD (w.length - 2) 0) + w.getD (w.length - 7) 0 +
        smallSigma0 (w.getD (w.length - 15) 0) + w.getD (w.length - 16) 0) % w32])
    ws

/-- One SHA-256 compression round. -/
def shaRound (st : Sha256State) (kw : Nat × Nat) : Sha256State :=
  let t1 := (st.h + bigSigma1 st.e + shaCh st.e st.f st.g + kw.1 + kw.2) % w32
  let t2 := (bigSigma0 st.a + shaMaj st.a st.b st.c) % w32
  ⟨(t1 + t2) % w32, st.a, st.b, st.c, (st.d + t1) % w32, st.e, st.f, st.g⟩

/-- Compress one 64-byte block into the running state. -/
def shaCompress (st : Sha256State) (block : List Nat) : Sha256State :=
  let ws := shaSchedule (blockWords block)
  let r := (shaK.zip ws).foldl shaRound st
  ⟨(st.a + r.a) % w32, (st.b + r.b) % w32, (st.c + r.c) % w32, (st.d + r.d) % w32,
   (st.e + r.e) % w32, (st.f + r.f) % w32, (st.g + r.g) % w32, (st.h + r.h) % w32⟩

/-- Fuelled 64-byte chunking step. -/
def chunks64F : Nat → List Nat → List (List Nat)
  | 0, _ => []
  | _, [] => []
  | fuel + 1, a :: rest => (a :: rest.take 63) :: chunks64F fuel (rest.drop 63)

/-- Split a byte list into chunks of 64. -/
def chunks64 (l : List Nat) : List (List Nat) := chunks64F l.length l

/-- SHA-256 padding: append 0x80, zeros, and the 64-bit bit length. -/
def shaPad (msg : List Nat) : List Nat :=
  let padZeros := (64 - (msg.length + 9) % 64) % 64
  msg ++ [0x80] ++ List.replicate padZeros 0 ++
    [msg.length * 8 / 72057594037927936 % 256, msg.length * 8 / 281474976710656 % 256,
     msg.length * 8 / 1099511627776 % 256, msg.length * 8 / 4294967296 % 256,
     msg.length * 8 / 16777216 % 256, msg.length * 8 / 65536 % 256,
     msg.length * 8 / 256 % 256, msg.length * 8 % 256]

/-- SHA-256 digest of a byte list (32 bytes). -/
def sha256 (msg : List Nat) : List Nat :=
  let fin := (chunks64 (shaPad msg)).foldl shaCompress sha256Init
  word32Bytes fin.a ++ word32Bytes fin.b ++ word32Bytes fin.c ++ word32Bytes fin.d ++
    word32Bytes fin.e ++ word32Bytes fin.f ++ word32Bytes fin.g ++ word32Bytes fin.h

/-- Byte-wise xor of two equal-length buffers. -/
def xorBytes (a b : List Nat) : List Nat := List.zipWith (· ^^^ ·) a b

/-- HMAC-SHA256 (the PRF inside `crypto.subtle.deriveBits` for PBKDF2). -/
def hmacSha256 (key msg : List Nat) : List Nat :=
  let k0 := if key.length > 64 then sha256 key else key
  let kPad := k0 ++ List.replicate (64 - k0.length) 0
  let ipad := kPad.map (· ^^^ 0x36)
  let opad := kPad.map (· ^^^ 0x5C)
  sha256 (opad ++ sha256 (ipad ++ msg))

/-- One PBKDF2 iteration: next `U`, xored into the running block. -/
def pbkdf2Step (password : List Nat) (acc : List Nat × List Nat) (_ : Nat) :
    List Nat × List Nat :=
  let uNext := hmacSha256 password acc.2
  (xorBytes acc.1 uNext, uNext)

/-- The PBKDF2 `U_i` chain folded with xor: `F(P, S, c, i)` for block index `i`. -/
def pbkdf2Block (password salt : List Nat) (iter blockIx : Nat) : List Nat :=
  let u1 := hmacSha256 password (salt ++ word32Bytes blockIx)
  ((List.range (iter - 1)).foldl (pbkdf2Step password) (u1, u1)).1

/-- Embedding of `pbkdf2Sha256` of `src/crypto/key-derivation.ts`: the call to
`crypto.subtle.deriveBits({name: PBKDF2, hash: SHA-256})`, embedded as the
PBKDF2 of RFC 8018 over HMAC-SHA256, producing `keyLength` bytes. -/
def pbkdf2Sha256 (password salt : List Nat) (iterations keyLength : Nat) : List Nat :=
  (((List.range ((keyLength + 31) / 32)).map
    (fun i => pbkdf2Block password salt iterations (i + 1))).flatten).take keyLength

-- ===== `src/crypto/key-derivation.ts` =====

def PBKDF2_ITERATIONS : Nat := 100000

def KEY_LENGTH : Nat := 32

/-- Error messages thrown by `deriveEncryptionKey` (its `InvalidInput` class). -/
def msgShortPassword : String := "Master password must be at least 8 characters"

def msgNoUserId : String := "User ID is required as salt"

/-- Embedding of `bytesToBase64` of the crypto sources (binary string plus `base64Encode`). -/
def bytesToBase64 (bytes : List Nat) : List Nat := b64encode bytes

/-- Embedding of `base64ToBytes` of `aes-gcm.ts` (`base64Decode` plus the `charCodeAt` loop). -/
def base64ToBytes (base64 : List Nat) : List Nat := b64decode base64

/-- Embedding of `deriveEncryptionKey(masterPassword, userId)`: validate inputs, then
PBKDF2-SHA256 with 100000 iterations, the user id bytes as salt, and a
32-byte output returned base64-encoded. -/
def deriveEncryptionKey (masterPassword userId : Str) : Except String Str :=
  if masterPassword = [] ∨ masterPassword.length < 8 then
    Except.error msgShortPassword
  else if userId = [] then
    Except.error msgNoUserId
  else
    let passwordBytes := textEncode masterPassword
    let saltBytes := textEncode userId
    let keyBytes := pbkdf2Sha256 passwordBytes saltBytes PBKDF2_ITERATIONS KEY_LENGTH
    Except.ok (bytesToBase64 keyBytes)

/-- Modelled from the spec: the reference key-derivation formula of §4.1 —
the base64 encoding of the 256-bit PBKDF2 output using a SHA-256 HMAC
chain with exactly 100,000 iterations, the UTF-8 bytes of the master
password as the password and the UTF-8 bytes of the account id as the salt
(a single `F(P, S, c, 1)` block, since the output length equals the hash
length). -/
def deriveSpec (masterPassword accountId : Str) : Str :=
  bytesToBase64 (pbkdf2Block (textEncode masterPassword) (textEncode accountId) 100000 1)

-- ===== AES-GCM (`crypto.subtle.encrypt` / `crypto.subtle.decrypt`) =====

/-- An AES-256 block cipher: 32-byte key and 16-byte block to 16-byte
block. The block function itself is a WebCrypto platform primitive, so the
development is parametric in it; the GCM mode around it is concrete. -/
abbrev BlockCipher := List Nat → List Nat → List Nat

/-- A block cipher is well formed when it maps 16-byte blocks to 16-byte
blocks of bytes. -/
def goodCipher (E : BlockCipher) : Prop :=
  (∀ key block, block.length = 16 → (E key block).length = 16) ∧
  (∀ key block x, x ∈ E key block → x < 256)

/-- Big-endian 4-byte counter. -/
def be32 (n : Nat) : List Nat := [n / 16777216 % 256, n / 65536 % 256, n / 256 % 256, n % 256]

/-- GCM counter block `i` for a 12-byte IV (payload counters start at 2). -/
def gcmCtrBlock (iv : List Nat) (i : Nat) : List Nat := iv ++ be32 (i + 2)

/-- The CTR keystream of GCM: as many whole blocks as needed, truncated. -/
def gcmKeystream (E : BlockCipher) (key iv : List Nat) (n : Nat) : List Nat :=
  (((List.range (n / 16 + 1)).map (fun i => E key (gcmCtrBlock iv i))).flatten).take n

/-- Big-endian value of a byte list. -/
def bytesToNat (l : List Nat) : Nat := l.foldl (fun a b => a * 256 + b) 0

/-- A 128-bit value to 16 big-endian bytes. -/
def nat128Bytes (n : Nat) : List Nat :=
  (List.range 16).map (fun i => n >>> ((15 - i) * 8) % 256)

/-- Carry-less multiplication in GF(2^128) with the GCM polynomial. -/
def gfMul (x y : Nat) : Nat :=
  ((List.range 128).foldl
    (fun p i =>
      let z := if x >>> (127 - i) % 2 = 1 then p.1 ^^^ p.2 else p.1
      let v := if p.2 % 2 = 1 then p.2 >>> 1 ^^^ 0xE1000000000000000000000000000000 else p.2 >>> 1
      (z, v))
    ((0 : Nat), y)).1

/-- Fuelled 16-byte chunking step. -/
def chunks16F : Nat → List Nat → List (List Nat)
  | 0, _ => []
  | _, [] => []
  | fuel + 1, a :: rest => (a :: rest.take 15) :: chunks16F fuel (rest.drop 15)

/-- Split a byte list into 16-byte chunks. -/
def chunks16 (l : List Nat) : List (List Nat) := chunks16F l.length l

/-- GHASH of the ciphertext under hash subkey `h` (no AAD, as in the app). -/
def ghash (h : Nat) (ct : List Nat) : Nat :=
  let padded := ct ++ List.replicate ((16 - ct.length % 16) % 16) 0
  let y := (chunks16 padded).foldl (fun y b => gfMul (y ^^^ bytesToNat b) h) 0
  gfMul (y ^^^ ct.length * 8) h

/-- The 16-byte GCM authentication tag over a ciphertext. -/
def gcmTag (E : BlockCipher) (key iv ct : List Nat) : List Nat :=
  xorBytes (E key (iv ++ [0, 0, 0, 1]))
    (nat128Bytes (ghash (bytesToNat (E key (List.replicate 16 0))) ct))

/-- Model of `crypto.subtle.encrypt` for AES-GCM with a 128-bit tag: ciphertext
with the 16-byte tag appended. -/
def aesGcmEncrypt (E : BlockCipher) (key iv pt : List Nat) : List Nat :=
  let ct := xorBytes pt (gcmKeystream E key iv pt.length)
  ct ++ gcmTag E key iv ct

/-- Model of `crypto.subtle.decrypt` for AES-GCM with a 128-bit tag: verify the
trailing tag, then strip the keystream; `none` on authentication failure. -/
def aesGcmDecrypt (E : BlockCipher) (key iv data : List Nat) : Option (List Nat) :=
  if data.length < 16 then none
  else
    let ct := data.take (data.length - 16)
    let tag := data.drop (data.length - 16)
    if tag = gcmTag E key iv ct then some (xorBytes ct (gcmKeystream E key iv ct.length))
    else none

-- ===== `src/crypto/aes-gcm.ts` =====

/-- The `EncryptedData` interface: base64-encoded ciphertext, IV, tag. -/
structure EncryptedData where
  encryptedData : Str
  iv : Str
  authTag : Str
deriving DecidableEq, Repr

/-- JavaScript error values thrown by the crypto module: plain `Error`
objects with a message, or the `SyntaxError` of `JSON.parse`. -/
inductive JsError where
  | error (msg : String)
  | parseError
deriving DecidableEq, Repr

/-- The opaque decryption-failure message of `decryptData`. -/
def msgDecryptionFailed : String := "Decryption failed - incorrect password or corrupted data"

def msgInvalidStructure : String := "Invalid encrypted data structure"

def msgPlaintextRequired : String := "Plaintext data is required"

def msgKeyRequired : String := "Encryption key is required"

def msgEncryptFailed : String := "Failed to encrypt data"

/-- Embedding of `encryptData(plaintext, encryptionKey)`. `ivDraw` is the 12-byte value
produced by `crypto.getRandomValues(new Uint8Array(12))` during the call
(the Random Byte Source draw). A key whose decoded length is not 256 bits
makes `importKey` throw, which the surrounding catch turns into the
generic encryption failure. -/
def encryptData (E : BlockCipher) (ivDraw : List Nat) (plaintext : Str) (encryptionKey : Str) :
    Except JsError EncryptedData :=
  if plaintext = [] then Except.error (JsError.error msgPlaintextRequired)
  else if encryptionKey = [] then Except.error (JsError.error msgKeyRequired)
  else
    let keyBytes := base64ToBytes encryptionKey
    if keyBytes.length ≠ 32 then Except.error (JsError.error msgEncryptFailed)
    else
      let iv := ivDraw
      let plaintextBytes := textEncode plaintext
      let encryptedArray := aesGcmEncrypt E keyBytes iv plaintextBytes
      let ciphertext := encryptedArray.take (encryptedArray.length - 16)
      let authTag := encryptedArray.drop (encryptedArray.length - 16)
      Except.ok ⟨bytesToBase64 ciphertext, bytesToBase64 iv, bytesToBase64 authTag⟩

/-- Embedding of `decryptData(encrypted, encryptionKey)`: structure check, key check,
then authenticated decryption; every failure inside the try block is
collapsed to the one opaque message. -/
def decryptData (E : BlockCipher) (encrypted : EncryptedData) (encryptionKey : Str) :
    Except JsError Str :=
  if encrypted.encryptedData = [] ∨ encrypted.iv = [] ∨ encrypted.authTag = [] then
    Except.error (JsError.error msgInvalidStructure)
  else if encryptionKey = [] then Except.error (JsError.error msgKeyRequired)
  else
    let keyBytes := base64ToBytes encryptionKey
    if keyBytes.length ≠ 32 then Except.error (JsError.error msgDecryptionFailed)
    else
      let ciphertext := base64ToBytes encrypted.encryptedData
      let iv := base64ToBytes encrypted.iv
      let authTag := base64ToBytes encrypted.authTag
      match aesGcmDecrypt E keyBytes iv (ciphertext ++ authTag) with
      | some pt => Except.ok (utf8Decode pt)
      | none => Except.error (JsError.error msgDecryptionFailed)

-- ===== `JSON.parse` (platform built-in used by `decryptObject`) =====

/-- JSON values (number and string payloads kept as their lexemes —
`decryptObject` only hands the parsed value through). -/
inductive Json where
  | null
  | boolean (b : Bool)
  | num (lexeme : List Nat)
  | str (chars : List Nat)
  | arr (elems : List Json)
  | obj (fields : List (List Nat × Json))

/-- Skip JSON whitespace. -/
def skipWs : List Nat → List Nat
  | c :: rest => if c = 32 ∨ c = 9 ∨ c = 10 ∨ c = 13 then skipWs rest else c :: rest
  | [] => []

/-- Parse the rest of a JSON string literal (after the opening quote). -/
def parseStrLit : List Nat → Option (List Nat × List Nat)
  | [] => none
  | c :: rest =>
    if c = 34 then some ([], rest)
    else if c = 92 then
      match rest with
      | [] => none
      | e :: rest2 =>
        if e = 117 then
          match rest2 with
          | h1 :: h2 :: h3 :: h4 :: rest3 =>
            let hex := fun (d : Nat) =>
              if 48 ≤ d ∧ d ≤ 57 then some (d - 48)
              else if 97 ≤ d ∧ d ≤ 102 then some (d - 87)
              else if 65 ≤ d ∧ d ≤ 70 then some (d - 55)
              else none
            match hex h1, hex h2, hex h3, hex h4 with
            | some v1, some v2, some v3, some v4 =>
              match parseStrLit rest3 with
              | some (s, rem) => some ((v1 * 4096 + v2 * 256 + v3 * 16 + v4) :: s, rem)
              | none => none
            | _, _, _, _ => none
          | _ => none
        else
          let unescaped :=
            if e = 34 then some 34 else if e = 92 then some 92 else if e = 47 then some 47
            else if e = 98 then some 8 else if e = 102 then some 12 else if e = 110 then some 10
            else if e = 114 then some 13 else if e = 116 then some 9 else none
          match unescaped with
          | some u =>
            match parseStrLit rest2 with
            | some (s, rem) => some (u :: s, rem)
            | none => none
          | none => none
    else if c < 32 then none
    else
      match parseStrLit rest with
      | some (s, rem) => some (c :: s, rem)
      | none => none

/-- Digit run for number parsing. -/
def takeDigits (l : List Nat) : List Nat × List Nat :=
  match l with
  | c :: rest =>
    if 48 ≤ c ∧ c ≤ 57 then
      let p := takeDigits rest
      (c :: p.1, p.2)
    else ([], l)
  | [] => ([], [])

/-- Parse a JSON number lexeme. -/
def parseNum (l : List Nat) : Option (List Nat × List Nat) :=
  let (sign, s1) := match l with
    | 45 :: rest => (([45] : List Nat), rest)
    | _ => ([], l)
  match s1 with
  | [] => none
  | c :: _ =>
    if ¬ (48 ≤ c ∧ c ≤ 57) then none
    else
      let (intDigits, s2) := takeDigits s1
      if intDigits.length > 1 ∧ intDigits.headD 0 = 48 then none
      else
        let (fracPart, s3) :=
          match s2 with
          | 46 :: rest =>
            let p := takeDigits rest
            if p.1 = [] then (none, s2) else (some (46 :: p.1), p.2)
          | _ => (none, s2)
        match fracPart with
        | none =>
          if s3 ≠ s2 then none
          else
            let (expPart, s4) :=
              match s3 with
              | e :: rest =>
                if e = 101 ∨ e = 69 then
                  let (es, rest2) := match rest with
                    | 43 :: r => (([43] : List Nat), r)
                    | 45 :: r => (([45] : List Nat), r)
                    | _ => ([], rest)
                  let p := takeDigits rest2
                  if p.1 = [] then (none, s3) else (some (e :: es ++ p.1), p.2)
                else (none, s3)
              | [] => (none, s3)
            match expPart with
            | none => some (sign ++ intDigits, s4)
            | some ep => some (sign ++ intDigits ++ ep, s4)
        | some fp =>
          let (expPart, s4) :=
            match s3 with
            | e :: rest =>
              if e = 101 ∨ e = 69 then
                let (es, rest2) := match rest with
                  | 43 :: r => (([43] : List Nat), r)
                  | 45 :: r => (([45] : List Nat), r)
                  | _ => ([], rest)
                let p := takeDigits rest2
                if p.1 = [] then (none, s3) else (some (e :: es ++ p.1), p.2)
              else (none, s3)
            | [] => (none, s3)
          match expPart with
          | none => some (sign ++ intDigits ++ fp, s4)
          | some ep => some (sign ++ intDigits ++ fp ++ ep, s4)

mutual

/-- Fuelled JSON value parser (`JSON.parse` grammar). -/
def parseVal : Nat → List Nat → Option (Json × List Nat)
  | 0, _ => none
  | fuel + 1, s =>
    match skipWs s with
    | [] => none
    | c :: rest =>
      if c = 110 then
        match rest with
        | 117 :: 108 :: 108 :: rem => some (Json.null, rem)
        | _ => none
      else if c = 116 then
        match rest with
        | 114 :: 117 :: 101 :: rem => some (Json.boolean true, rem)
        | _ => none
      else if c = 102 then
        match rest with
        | 97 :: 108 :: 115 :: 101 :: rem => some (Json.boolean false, rem)
        | _ => none
      else if c = 34 then
        match parseStrLit rest with
        | some (chars, rem) => some (Json.str chars, rem)
        | none => none
      else if c = 91 then
        match skipWs rest with
        | 93 :: rem => some (Json.arr [], rem)
        | _ =>
          match parseItems fuel rest with
          | some (elems, rem) => some (Json.arr elems, rem)
          | none => none
      else if c = 123 then
        match skipWs rest with
        | 125 :: rem => some (Json.obj [], rem)
        | _ =>
          match parseFields fuel rest with
          | some (fields, rem) => some (Json.obj fields, rem)
          | none => none
      else
        match parseNum (c :: rest) with
        | some (lexeme, rem) => some (Json.num lexeme, rem)
        | none => none

/-- Comma-separated array elements up to the closing bracket. -/
def parseItems : Nat → List Nat → Option (List Json × List Nat)
  | 0, _ => none
  | fuel + 1, s =>
    match parseVal fuel s with
    | some (v, rem) =>
      match skipWs rem with
      | 44 :: rem2 =>
        match parseItems fuel rem2 with
        | some (vs, rem3) => some (v :: vs, rem3)
        | none => none
      | 93 :: rem2 => some ([v], rem2)
      | _ => none
    | none => none

/-- Comma-separated object members up to the closing brace. -/
def parseFields : Nat → List Nat → Option (List (List Nat × Json) × List Nat)
  | 0, _ => none
  | fuel + 1, s =>
    match skipWs s with
    | 34 :: rest =>
      match parseStrLit rest with
      | some (name, rem) =>
        match skipWs rem with
        | 58 :: rem2 =>
          match parseVal fuel rem2 with
          | some (v, rem3) =>
            match skipWs rem3 with
            | 44 :: rem4 =>
              match parseFields fuel rem4 with
              | some (fs, rem5) => some ((name, v) :: fs, rem5)
              | none => none
            | 125 :: rem4 => some ([(name, v)], rem4)
            | _ => none
          | none => none
        | _ => none
      | none => none
    | _ => none

end

/-- Model of `JSON.parse`: parse a complete JSON text; `none` models the thrown
`SyntaxError`. -/
def jsonParse (s : List Nat) : Option Json :=
  match parseVal (s.length + 1) s with
  | some (j, rem) => if skipWs rem = [] then some j else none
  | none => none

/-- Embedding of `decryptObject(encrypted, encryptionKey)`: `decryptData` then
`JSON.parse` — note the parse step is NOT inside any try/catch. -/
def decryptObject (E : BlockCipher) (encrypted : EncryptedData) (encryptionKey : Str) :
    Except JsError Json :=
  match decryptData E encrypted encryptionKey with
  | Except.error e => Except.error e
  | Except.ok jsonString =>
    match jsonParse jsonString with
    | some j => Except.ok j
    | none => Except.error JsError.parseError

-- ===== `verifyMasterPassword` (`src/crypto/key-derivation.ts`) =====

/-- Embedding of `verifyMasterPassword(masterPassword, userId, encryptedTestData)`:
derive and attempt to decrypt a known record; any failure gives `false`. -/
def verifyMasterPassword (E : BlockCipher) (masterPassword userId : Str)
    (encryptedTestData : EncryptedData) : Bool :=
  match deriveEncryptionKey masterPassword userId with
  | Except.error _ => false
  | Except.ok key =>
    match decryptData E encryptedTestData key with
    | Except.ok _ => true
    | Except.error _ => false

-- ===== `src/store/auth.store.ts` and the secure-store write sites =====

structure User where
  id : Str
  email : Str
  firstName : Option Str
  lastName : Option Str
deriving DecidableEq, Repr

/-- The response of the remote session/token service. -/
structure AuthResponse where
  accessToken : Str
  refreshToken : Str
  userId : Str
  email : Str
  firstName : Option Str
  lastName : Option Str
deriving DecidableEq, Repr

/-- The Zustand auth store state. -/
structure AuthState where
  user : Option User
  accessToken : Option Str
  refreshToken : Option Str
  encryptionKey : Option Str
  isAuthenticated : Bool
  isLoading : Bool
  error : Option String
deriving DecidableEq, Repr

/-- Initial store state. -/
def initialAuthState : AuthState := ⟨none, none, none, none, false, false, none⟩

/-- Values written to `expo-secure-store`, tagged with their provenance in
the source (which expression reaches the `setItemAsync` call site). -/
inductive StoredValue where
  | bearerAccess (v : Str)
  | bearerRefresh (v : Str)
  | deviceIdent (v : Str)
  | masterPw (v : Str)
  | derivedKey (v : Str)
deriving DecidableEq, Repr

/-- One `SecureStore` mutation. -/
inductive SecureOp where
  | write (key : String) (value : StoredValue)
  | delete (key : String)
deriving DecidableEq, Repr

def ACCESS_TOKEN_KEY : String := "vaultguard_access_token"

def REFRESH_TOKEN_KEY : String := "vaultguard_refresh_token"

def DEVICE_ID_KEY : String := "vaultguard_device_id"

def BIOMETRIC_PASSWORD_KEY : String := "vaultguard_biometric_password"

/-- Embedding of `saveTokens` of `src/services/api.ts`. -/
def saveTokens (accessToken refreshToken : Str) : List SecureOp :=
  [SecureOp.write ACCESS_TOKEN_KEY (StoredValue.bearerAccess accessToken),
   SecureOp.write REFRESH_TOKEN_KEY (StoredValue.bearerRefresh refreshToken)]

/-- Embedding of `clearTokens` of `src/services/api.ts`. -/
def clearTokens : List SecureOp :=
  [SecureOp.delete ACCESS_TOKEN_KEY, SecureOp.delete REFRESH_TOKEN_KEY]

/-- Secure-store writes performed inside `AuthService.login` /
`AuthService.register` (tokens are saved there on success; a thrown API
error reaches the store before any save). -/
def authServiceWrites (resp : Option AuthResponse) : List SecureOp :=
  match resp with
  | some a => saveTokens a.accessToken a.refreshToken
  | none => []

/-- Embedding of `login(email, password)`. `resp` is the outcome of the remote
`AuthService.login` call (`none` = rejected). Returns the new state and
the trace of secure-store mutations. -/
def login (resp : Option AuthResponse) (password : Str) (st : AuthState) :
    AuthState × List SecureOp :=
  let st1 := { st with isLoading := true, error := none }
  match resp with
  | none => ({ st1 with error := some "Login failed", isLoading := false }, [])
  | some a =>
    match deriveEncryptionKey password a.userId with
    | Except.error e =>
      ({ st1 with error := some e, isLoading := false }, authServiceWrites resp)
    | Except.ok key =>
      ({ st1 with
          user := some ⟨a.userId, a.email, a.firstName, a.lastName⟩,
          accessToken := some a.accessToken,
          refreshToken := some a.refreshToken,
          encryptionKey := some key,
          isAuthenticated := true,
          isLoading := false },
        authServiceWrites resp)

/-- Embedding of `register(email, password, firstName, lastName)`: like `login`, but
the store also calls `saveTokens` itself after key derivation. -/
def register (resp : Option AuthResponse) (password : Str) (st : AuthState) :
    AuthState × List SecureOp :=
  let st1 := { st with isLoading := true, error := none }
  match resp with
  | none => ({ st1 with error := some "Registration failed", isLoading := false }, [])
  | some a =>
    match deriveEncryptionKey password a.userId with
    | Except.error e =>
      ({ st1 with error := some e, isLoading := false }, authServiceWrites resp)
    | Except.ok key =>
      ({ st1 with
          user := some ⟨a.userId, a.email, a.firstName, a.lastName⟩,
          accessToken := some a.accessToken,
          refreshToken := some a.refreshToken,
          encryptionKey := some key,
          isAuthenticated := true,
          isLoading := false },
        authServiceWrites resp ++ saveTokens a.accessToken a.refreshToken)

/-- Embedding of `logout()`: `AuthService.logout` clears the stored tokens in its
`finally`, and the store's own `finally` clears them again and resets all
state (including the encryption key). -/
def logout (st : AuthState) : AuthState × List SecureOp :=
  ({ user := none, accessToken := none, refreshToken := none, encryptionKey := none,
     isAuthenticated := false, isLoading := st.isLoading, error := none },
   clearTokens ++ clearTokens)

/-- Embedding of `loadSession()`: read both tokens from `SecureStore` (the two `Option`
arguments are what the reads return); with both present the session is
restored — tokens and `isAuthenticated` only, no key and no user. -/
def loadSession (storedAccess storedRefresh : Option Str) (st : AuthState) :
    AuthState × List SecureOp :=
  let st1 := { st with isLoading := true }
  match storedAccess, storedRefresh with
  | some a, some r =>
    ({ st1 with
        accessToken := some a
        refreshToken := some r
        isAuthenticated := true
        isLoading := false }, [])
  | _, _ => ({ st1 with isLoading := false }, [])

/-- Embedding of `lockApp()`: clear the encryption key, keep everything else. -/
def lockApp (st : AuthState) : AuthState × List SecureOp :=
  ({ st with encryptionKey := none }, [])

/-- Embedding of `unlockApp(masterPassword)`: re-derive the key from the master
password; throws `'No active session'` when no user is resident. The third
component is the promise outcome observed by the caller. -/
def unlockApp (masterPassword : Str) (st : AuthState) :
    AuthState × List SecureOp × Except String Unit :=
  match st.user with
  | none => (st, [], Except.error "No active session")
  | some user =>
    let st1 := { st with isLoading := true, error := none }
    match deriveEncryptionKey masterPassword user.id with
    | Except.ok key =>
      ({ st1 with encryptionKey := some key, isLoading := false }, [], Except.ok ())
    | Except.error e =>
      ({ st1 with error := some e, isLoading := false }, [], Except.error e)

/-- Embedding of `handleUnlock` of the unlock screen: call `unlockApp`, and under the
biometric opt-in flag persist the master password for biometric unlock. -/
def handleUnlock (password : Str) (biometricEnabled : Bool) (st : AuthState) :
    AuthState × List SecureOp :=
  if password = [] then (st, [])
  else
    let r := unlockApp password st
    match r.2.2 with
    | Except.ok _ =>
      (r.1, r.2.1 ++
        (if biometricEnabled then
          [SecureOp.write BIOMETRIC_PASSWORD_KEY (StoredValue.masterPw password)]
         else []))
    | Except.error _ => (r.1, r.2.1)

/-- Embedding of `getDeviceId` of `src/utils/device.ts`: reuse the stored device id or
persist a freshly generated UUID. -/
def getDeviceId (stored : Option Str) (freshUuid : Str) : Str × List SecureOp :=
  match stored with
  | some d => (d, [])
  | none => (freshUuid, [SecureOp.write DEVICE_ID_KEY (StoredValue.deviceIdent freshUuid)])

/-- A secure-store mutation carries derived-key material. -/
def carriesDerivedKey : SecureOp → Bool
  | SecureOp.write _ (StoredValue.derivedKey _) => true
  | _ => false

-- ===== Concrete instances used by witnesses and counterexamples =====

/-- A concrete well-formed block cipher standing in for the AES-256
primitive in witnesses (any `goodCipher` works for the GCM-level laws). -/
def demoCipher : BlockCipher := fun key block => block.map (fun b => (b + key.sum) % 256)

/-- A concrete 32-byte key and its base64 text. -/
def kb0 : List Nat := List.replicate 32 7

def key0 : Str := b64encode kb0

/-- A concrete 12-byte IV draw. -/
def iv0 : List Nat := List.replicate 12 3

/-- A second, distinct 12-byte IV draw. -/
def iv1 : List Nat := List.replicate 12 4

/-- The codes of `"hello"` (not valid JSON). -/
def hello : Str := [104, 101, 108, 108, 111]

/-- The record `encryptData demoCipher iv0 hello key0`, spelled out. -/
def rec6 : EncryptedData :=
  ⟨[105, 52, 97, 80, 106, 52, 119, 61],
   [65, 119, 77, 68, 65, 119, 77, 68, 65, 119, 77, 68, 65, 119, 77, 68],
   [116, 43, 74, 57, 56, 119, 77, 116, 88, 67, 49, 99, 76, 86, 119, 116, 88, 121, 53, 102, 79, 81,
    61, 61]⟩

/-- The record `rec6` with a corrupted tag. -/
def rec6bad : EncryptedData :=
  { rec6 with authTag := b64encode (List.replicate 16 0) }

/-- Codes of `"Sup3rSecret!"`. -/
def pwA : Str := [83, 117, 112, 51, 114, 83, 101, 99, 114, 101, 116, 33]

/-- Codes of `"WrongPass99"` (a different well-formed password). -/
def pwB : Str := [87, 114, 111, 110, 103, 80, 97, 115, 115, 57, 57]

/-- Codes of `"short"`. -/
def pwShort : Str := [115, 104, 111, 114, 116]

/-- Codes of `"user-42"`. -/
def uid0 : Str := [117, 115, 101, 114, 45, 52, 50]

/-- Codes of `"user-1"`. -/
def uid1 : Str := [117, 115, 101, 114, 45, 49]

/-- Codes of `"a@b"`. -/
def email0 : Str := [97, 64, 98]

/-- Concrete token strings. -/
def tokA : Str := [116, 65]

def tokR : Str := [116, 82]

/-- A concrete auth-service response. -/
def resp0 : AuthResponse := ⟨tokA, tokR, uid0, email0, none, none⟩

/-- The state after a successful login with `pwA` followed by `lockApp`:
an authenticated, locked session. -/
def stLocked : AuthState := (lockApp (login (some resp0) pwA initialAuthState).1).1

/-- A secure-store mutation is one the design allows: a delete, or a write
of a bearer token, the device identifier, or (biometric opt-in) the master
password — never key material. -/
def allowedWrite : SecureOp → Bool
  | SecureOp.delete _ => true
  | SecureOp.write _ (StoredValue.bearerAccess _) => true
  | SecureOp.write _ (StoredValue.bearerRefresh _) => true
  | SecureOp.write _ (StoredValue.deviceIdent _) => true
  | SecureOp.write _ (StoredValue.masterPw _) => true
  | SecureOp.write _ (StoredValue.derivedKey _) => false

set_option maxRecDepth 100000

theorem utf8EncodeChar_ne_nil (c : Nat) : utf8EncodeChar c ≠ [] := by
  unfold utf8EncodeChar
  split
  · simp
  · split
    · simp
    · split <;> simp

theorem utf8EncodeChar_bytes {c : Nat} (hc : c < 0x110000) :
    ∀ x ∈ utf8EncodeChar c, x < 256 := by
  unfold utf8EncodeChar
  split
  · intro x hx; simp at hx; omega
  · split
    · intro x hx
      simp at hx
      have h1 : c / 64 < 32 := by omega
      have h2 : c % 64 < 64 := Nat.mod_lt _ (by omega)
      rcases hx with h | h <;> omega
    · split
      · intro x hx
        simp at hx
        have h1 : c / 4096 < 16 := by omega
        have h2 : c / 64 % 64 < 64 := Nat.mod_lt _ (by omega)
        have h3 : c % 64 < 64 := Nat.mod_lt _ (by omega)
        rcases hx with h | h | h <;> omega
      · intro x hx
        simp at hx
        have h1 : c / 262144 < 5 := by omega
        have h2 : c / 4096 % 64 < 64 := Nat.mod_lt _ (by omega)
        have h3 : c / 64 % 64 < 64 := Nat.mod_lt _ (by omega)
        have h4 : c % 64 < 64 := Nat.mod_lt _ (by omega)
        rcases hx with h | h | h | h <;> omega

/-- Decoding with ample fuel is fuel-independent. -/
theorem utf8DecodeF_mono : ∀ (f1 f2 : Nat) (l : List Nat), l.length ≤ f1 → l.length ≤ f2 →
    utf8DecodeF f1 l = utf8DecodeF f2 l := by
  intro f1
  induction f1 with
  | zero =>
    intro f2 l h1 _
    have hl : l = [] := List.eq_nil_of_length_eq_zero (Nat.le_zero.mp h1)
    subst hl
    cases f2 <;> rfl
  | succ a ih =>
    intro f2 l h1 h2
    cases l with
    | nil => cases f2 <;> rfl
    | cons b rest =>
      cases f2 with
      | zero => simp at h2
      | succ d =>
        have hr1 : rest.length ≤ a := by simp only [List.length_cons] at h1; omega
        have hr2 : rest.length ≤ d := by simp only [List.length_cons] at h2; omega
        simp only [utf8DecodeF]
        split_ifs
        · exact congrArg _ (ih d rest hr1 hr2)
        · exact congrArg _ (ih d rest hr1 hr2)
        · rfl
        · exact congrArg _ (ih d _ (by rw [List.length_drop]; omega) (by rw [List.length_drop]; omega))
        · rfl
        · exact congrArg _ (ih d _ (by rw [List.length_drop]; omega) (by rw [List.length_drop]; omega))
        · rfl
        · exact congrArg _ (ih d _ (by rw [List.length_drop]; omega) (by rw [List.length_drop]; omega))

/-- Decoding one encoded scalar value consumes exactly its bytes. -/
theorem utf8DecodeF_encChar {c : Nat} (hc : c < 0x110000) (t : List Nat) :
    ∀ fuel, utf8DecodeF (fuel + 1) (utf8EncodeChar c ++ t) = c :: utf8DecodeF fuel t := by
  intro fuel
  unfold utf8EncodeChar
  by_cases h1 : c < 0x80
  · simp only [if_pos h1, List.cons_append, List.nil_append]
    simp only [utf8DecodeF]
    rw [if_pos h1]
  · by_cases h2 : c < 0x800
    · simp only [if_neg h1, if_pos h2, List.cons_append, List.nil_append]
      simp only [utf8DecodeF]
      rw [if_neg (by omega : ¬ (0xC0 + c / 64 < 0x80)),
        if_neg (by omega : ¬ (0xC0 + c / 64 < 0xC0)),
        if_pos (by omega : 0xC0 + c / 64 < 0xE0)]
      rw [if_neg (by simp only [List.length_cons]; omega)]
      simp only [List.headD_cons, List.drop_succ_cons, List.drop_zero]
      congr 1
      omega
    · by_cases h3 : c < 0x10000
      · simp only [if_neg h1, if_neg h2, if_pos h3, List.cons_append, List.nil_append]
        simp only [utf8DecodeF]
        rw [if_neg (by omega : ¬ (0xE0 + c / 4096 < 0x80)),
          if_neg (by omega : ¬ (0xE0 + c / 4096 < 0xC0)),
          if_neg (by omega : ¬ (0xE0 + c / 4096 < 0xE0)),
          if_pos (by omega : 0xE0 + c / 4096 < 0xF0)]
        rw [if_neg (by simp only [List.length_cons]; omega)]
        simp only [List.headD_cons, List.drop_succ_cons, List.drop_zero]
        congr 1
        omega
      · simp only [if_neg h1, if_neg h2, if_neg h3, List.cons_append, List.nil_append]
        simp only [utf8DecodeF]
        rw [if_neg (by omega : ¬ (0xF0 + c / 262144 < 0x80)),
          if_neg (by omega : ¬ (0xF0 + c / 262144 < 0xC0)),
          if_neg (by omega : ¬ (0xF0 + c / 262144 < 0xE0)),
          if_neg (by omega : ¬ (0xF0 + c / 262144 < 0xF0))]
        rw [if_neg (by simp only [List.length_cons]; omega)]
        simp only [List.headD_cons, List.drop_succ_cons, List.drop_zero]
        congr 1
        omega

theorem utf8Decode_encodeChar {c : Nat} (hc : c < 0x110000) (t : List Nat) :
    utf8Decode (utf8EncodeChar c ++ t) = c :: utf8Decode t := by
  have henc : 1 ≤ (utf8EncodeChar c).length :=
    List.length_pos.mpr (utf8EncodeChar_ne_nil c)
  have hlen : (utf8EncodeChar c ++ t).length = ((utf8EncodeChar c).length - 1 + t.length) + 1 := by
    rw [List.length_append]
    omega
  unfold utf8Decode
  rw [hlen, utf8DecodeF_encChar hc t]
  congr 1
  exact utf8DecodeF_mono _ _ t (by omega) le_rfl

/-- UTF-8 round trip: decoding the encoding of a valid string gives it back. -/
theorem utf8_round_trip {s : Str} (hs : validStr s) :
    utf8Decode (textEncode s) = s := by
  induction s with
  | nil => rfl
  | cons c cs ih =>
    have hc : c < 0x110000 := hs c (by simp)
    have hcs : validStr cs := fun x hx => hs x (by simp [hx])
    simp only [textEncode, List.map_cons, List.flatten_cons]
    rw [utf8Decode_encodeChar hc]
    exact congrArg (c :: ·) (ih hcs)

theorem b64Val_b64Char : ∀ n < 64, b64Val (b64Char n) = n := by decide

theorem b64Char_ne_pad : ∀ n < 64, b64Char n ≠ 61 := by decide

theorem b64encode_ne_nil {bs : List Nat} (h : bs ≠ []) : b64encode bs ≠ [] := by
  match bs with
  | [] => exact absurd rfl h
  | [a] => simp [b64encode]
  | [a, b] => simp [b64encode]
  | a :: b :: c :: rest => simp [b64encode]

/-- Base64 round trip on byte lists. -/
theorem b64_round_trip : ∀ bs : List Nat, isBytes bs → b64decode (b64encode bs) = bs := by
  have main : ∀ n bs, List.length bs ≤ n → isBytes bs → b64decode (b64encode bs) = bs := by
    intro n
    induction n with
    | zero =>
      intro bs hlen _
      have : bs = [] := List.eq_nil_of_length_eq_zero (Nat.le_zero.mp hlen)
      subst this
      rfl
    | succ n ih =>
      intro bs hlen hbytes
      match bs with
      | [] => rfl
      | [a] =>
        have ha : a < 256 := hbytes a (by simp)
        have h1 : a / 4 < 64 := by omega
        have h2 : a % 4 * 16 < 64 := by omega
        rw [b64encode, b64decode]
        rw [if_pos rfl]
        rw [b64Val_b64Char _ h1, b64Val_b64Char _ h2]
        congr 1
        omega
      | [a, b] =>
        have ha : a < 256 := hbytes a (by simp)
        have hb : b < 256 := hbytes b (by simp)
        have h1 : a / 4 < 64 := by omega
        have h2 : a % 4 * 16 + b / 16 < 64 := by omega
        have h3 : b % 16 * 4 < 64 := by omega
        rw [b64encode, b64decode]
        rw [if_neg (b64Char_ne_pad _ h3), if_pos rfl]
        rw [b64Val_b64Char _ h1, b64Val_b64Char _ h2, b64Val_b64Char _ h3]
        congr 2
        · omega
        · omega
      | a :: b :: c :: rest =>
        have ha : a < 256 := hbytes a (by simp)
        have hb : b < 256 := hbytes b (by simp)
        have hc : c < 256 := hbytes c (by simp)
        have h1 : a / 4 < 64 := by omega
        have h2 : a % 4 * 16 + b / 16 < 64 := by omega
        have h3 : b % 16 * 4 + c / 64 < 64 := by omega
        have h4 : c % 64 < 64 := by omega
        rw [b64encode, b64decode]
        rw [if_neg (b64Char_ne_pad _ h3), if_neg (b64Char_ne_pad _ h4)]
        rw [b64Val_b64Char _ h1, b64Val_b64Char _ h2, b64Val_b64Char _ h3, b64Val_b64Char _ h4]
        have hrest : b64decode (b64encode rest) = rest := by
          apply ih
          · simp only [List.length_cons] at hlen; omega
          · intro x hx; exact hbytes x (by simp [hx])
        rw [hrest]
        congr 3
        · omega
        · omega
        · omega
  exact fun bs => main bs.length bs le_rfl

/-- Base64 encoding is injective on byte lists. -/
theorem b64encode_inj {bs1 bs2 : List Nat} (h1 : isBytes bs1) (h2 : isBytes bs2)
    (h : b64encode bs1 = b64encode bs2) : bs1 = bs2 := by
  have := congrArg b64decode h
  rwa [b64_round_trip bs1 h1, b64_round_trip bs2 h2] at this

theorem sha256_length (msg : List Nat) : (sha256 msg).length = 32 := by
  simp [sha256, word32Bytes]

theorem hmacSha256_length (key msg : List Nat) : (hmacSha256 key msg).length = 32 :=
  sha256_length _

-- ===== Supporting lemmas for the cipher round trip =====

theorem xorBytes_length (a b : List Nat) : (xorBytes a b).length = min a.length b.length := by
  simp [xorBytes]

theorem xorBytes_cancel : ∀ (a b : List Nat), a.length = b.length →
    xorBytes (xorBytes a b) b = a := by
  intro a
  induction a with
  | nil => intro b _; cases b <;> rfl
  | cons x xs ih =>
    intro b hlen
    cases b with
    | nil => simp at hlen
    | cons y ys =>
      simp only [List.length_cons] at hlen
      have hstep : xorBytes (xorBytes (x :: xs) (y :: ys)) (y :: ys) =
          (x ^^^ y ^^^ y) :: xorBytes (xorBytes xs ys) ys := rfl
      rw [hstep, Nat.xor_cancel_right, ih ys (by omega)]

theorem xorBytes_bytes : ∀ (a b : List Nat), isBytes a → isBytes b →
    isBytes (xorBytes a b) := by
  intro a
  induction a with
  | nil => intro b _ _ x hx; simp [xorBytes] at hx
  | cons v vs ih =>
    intro b ha hb x hx
    cases b with
    | nil => simp [xorBytes] at hx
    | cons w ws =>
      simp only [xorBytes, List.zipWith_cons_cons, List.mem_cons] at hx
      rcases hx with h | h
      · subst h
        have hv : v < 256 := ha v (by simp)
        have hw : w < 256 := hb w (by simp)
        have : v ^^^ w < 2 ^ 8 := Nat.xor_lt_two_pow (by omega) (by omega)
        omega
      · exact ih ws (fun y hy => ha y (by simp [hy])) (fun y hy => hb y (by simp [hy])) x h

theorem textEncode_bytes {s : Str} (hs : validStr s) : isBytes (textEncode s) := by
  intro x hx
  simp only [textEncode, List.mem_flatten, List.mem_map] at hx
  obtain ⟨l, ⟨c, hc, rfl⟩, hxl⟩ := hx
  exact utf8EncodeChar_bytes (hs c hc) x hxl

theorem textEncode_ne_nil {s : Str} (hs : s ≠ []) : textEncode s ≠ [] := by
  cases s with
  | nil => exact absurd rfl hs
  | cons c cs =>
    simp only [textEncode, List.map_cons, List.flatten_cons, ne_eq, List.append_eq_nil]
    intro h
    exact utf8EncodeChar_ne_nil c h.1

theorem gcmCtrBlock_length {iv : List Nat} (hiv : iv.length = 12) (i : Nat) :
    (gcmCtrBlock iv i).length = 16 := by
  simp [gcmCtrBlock, be32, hiv]

theorem gcmKeystream_length {E : BlockCipher} (hE : goodCipher E) {key iv : List Nat}
    (hiv : iv.length = 12) (n : Nat) : (gcmKeystream E key iv n).length = n := by
  have hblocks : ∀ i, (E key (gcmCtrBlock iv i)).length = 16 := fun i =>
    hE.1 key _ (gcmCtrBlock_length hiv i)
  simp only [gcmKeystream, List.length_take, List.length_flatten, List.map_map]
  have hmap : (List.map (List.length ∘ fun i => E key (gcmCtrBlock iv i)) (List.range (n / 16 + 1)))
      = List.map (fun _ => 16) (List.range (n / 16 + 1)) :=
    List.map_congr_left (fun i _ => hblocks i)
  rw [hmap, List.map_const', List.sum_replicate, List.length_range]
  simp only [smul_eq_mul]
  omega

theorem gcmKeystream_bytes {E : BlockCipher} (hE : goodCipher E) (key iv : List Nat) (n : Nat) :
    isBytes (gcmKeystream E key iv n) := by
  intro x hx
  have hx' := List.take_subset _ _ hx
  simp only [List.mem_flatten, List.mem_map] at hx'
  obtain ⟨l, ⟨i, _, rfl⟩, hxl⟩ := hx'
  exact hE.2 key _ x hxl

theorem nat128Bytes_length (n : Nat) : (nat128Bytes n).length = 16 := by
  simp [nat128Bytes]

theorem nat128Bytes_bytes (n : Nat) : isBytes (nat128Bytes n) := by
  intro x hx
  simp only [nat128Bytes, List.mem_map, List.mem_range] at hx
  obtain ⟨i, _, rfl⟩ := hx
  exact Nat.mod_lt _ (by omega)

theorem gcmTag_length {E : BlockCipher} (hE : goodCipher E) {key iv ct : List Nat}
    (hiv : iv.length = 12) : (gcmTag E key iv ct).length = 16 := by
  have h1 : (iv ++ [0, 0, 0, 1]).length = 16 := by simp [hiv]
  have h2 : (E key (iv ++ [0, 0, 0, 1])).length = 16 := hE.1 key _ h1
  simp [gcmTag, xorBytes_length, h2, nat128Bytes_length]

theorem gcmTag_bytes {E : BlockCipher} (hE : goodCipher E) (key iv ct : List Nat) :
    isBytes (gcmTag E key iv ct) :=
  xorBytes_bytes _ _ (fun x hx => hE.2 key _ x hx) (nat128Bytes_bytes _)

/-- What `encryptData` produces on valid inputs: base64 of the CTR
ciphertext, the IV draw, and the GCM tag. -/
theorem encryptData_eq {E : BlockCipher} (hE : goodCipher E) {p : Str} (hp : p ≠ [])
    {kb iv : List Nat} (hkl : kb.length = 32) (hkb : isBytes kb) (hivl : iv.length = 12) :
    encryptData E iv p (b64encode kb) =
      Except.ok
        ⟨bytesToBase64 (xorBytes (textEncode p) (gcmKeystream E kb iv (textEncode p).length)),
         bytesToBase64 iv,
         bytesToBase64 (gcmTag E kb iv
           (xorBytes (textEncode p) (gcmKeystream E kb iv (textEncode p).length)))⟩ := by
  have hkne : b64encode kb ≠ [] := b64encode_ne_nil (by intro h; rw [h] at hkl; simp at hkl)
  have hdk : base64ToBytes (b64encode kb) = kb := b64_round_trip kb hkb
  have hct_len : (xorBytes (textEncode p) (gcmKeystream E kb iv (textEncode p).length)).length
      = (textEncode p).length := by
    rw [xorBytes_length, gcmKeystream_length hE hivl]
    exact min_self _
  have htag_len : (gcmTag E kb iv
      (xorBytes (textEncode p) (gcmKeystream E kb iv (textEncode p).length))).length = 16 :=
    gcmTag_length hE hivl
  unfold encryptData
  rw [if_neg hp, if_neg hkne]
  simp only [bytesToBase64, base64ToBytes] at hdk ⊢
  rw [hdk]
  rw [if_neg (by rw [hkl]; exact fun h => h rfl)]
  unfold aesGcmEncrypt
  congr 1
  have harith : (xorBytes (textEncode p) (gcmKeystream E kb iv (textEncode p).length) ++
      gcmTag E kb iv (xorBytes (textEncode p) (gcmKeystream E kb iv (textEncode p).length))).length
      - 16 = (xorBytes (textEncode p) (gcmKeystream E kb iv (textEncode p).length)).length := by
    rw [List.length_append, htag_len]
    omega
  rw [harith]
  rw [List.take_left, List.drop_left]

/-- Decrypting what `encryptData` produced, with the same key, gives the
plaintext back. -/
theorem decrypt_encrypt_core {E : BlockCipher} (hE : goodCipher E) {p : Str} (hp : p ≠ [])
    (hpv : validStr p) {kb iv : List Nat} (hkl : kb.length = 32) (hkb : isBytes kb)
    (hivl : iv.length = 12) (hivb : isBytes iv) {rec : EncryptedData}
    (hrec : encryptData E iv p (b64encode kb) = Except.ok rec) :
    decryptData E rec (b64encode kb) = Except.ok p := by
  rw [encryptData_eq hE hp hkl hkb hivl] at hrec
  injection hrec with hrec
  subst hrec
  have hkne : b64encode kb ≠ [] := b64encode_ne_nil (by intro h; rw [h] at hkl; simp at hkl)
  have hdk : base64ToBytes (b64encode kb) = kb := b64_round_trip kb hkb
  have hpt_ne : textEncode p ≠ [] := textEncode_ne_nil hp
  have hpt_bytes : isBytes (textEncode p) := textEncode_bytes hpv
  have hks_len : (gcmKeystream E kb iv (textEncode p).length).length = (textEncode p).length :=
    gcmKeystream_length hE hivl _
  have hct_bytes : isBytes (xorBytes (textEncode p) (gcmKeystream E kb iv (textEncode p).length)) :=
    xorBytes_bytes _ _ hpt_bytes (gcmKeystream_bytes hE kb iv _)
  have hct_len : (xorBytes (textEncode p) (gcmKeystream E kb iv (textEncode p).length)).length
      = (textEncode p).length := by
    rw [xorBytes_length, hks_len]
    exact min_self _
  have hct_ne : xorBytes (textEncode p) (gcmKeystream E kb iv (textEncode p).length) ≠ [] := by
    intro h
    rw [h] at hct_len
    exact hpt_ne (List.eq_nil_of_length_eq_zero hct_len.symm)
  have hiv_ne : iv ≠ [] := by intro h; rw [h] at hivl; simp at hivl
  have htag_len : (gcmTag E kb iv
      (xorBytes (textEncode p) (gcmKeystream E kb iv (textEncode p).length))).length = 16 :=
    gcmTag_length hE hivl
  have htag_ne : gcmTag E kb iv
      (xorBytes (textEncode p) (gcmKeystream E kb iv (textEncode p).length)) ≠ [] := by
    intro h
    rw [h] at htag_len
    simp at htag_len
  unfold decryptData
  rw [if_neg (by
    push_neg
    exact ⟨b64encode_ne_nil hct_ne, b64encode_ne_nil hiv_ne, b64encode_ne_nil htag_ne⟩)]
  rw [if_neg hkne]
  simp only [base64ToBytes, bytesToBase64] at hdk ⊢
  rw [hdk]
  rw [if_neg (by rw [hkl]; exact fun h => h rfl)]
  rw [b64_round_trip _ hct_bytes, b64_round_trip _ hivb, b64_round_trip _ (gcmTag_bytes hE kb iv _)]
  unfold aesGcmDecrypt
  rw [if_neg (by
    rw [List.length_append, htag_len]
    omega)]
  have harith : (xorBytes (textEncode p) (gcmKeystream E kb iv (textEncode p).length) ++
      gcmTag E kb iv (xorBytes (textEncode p) (gcmKeystream E kb iv (textEncode p).length))).length
      - 16 = (xorBytes (textEncode p) (gcmKeystream E kb iv (textEncode p).length)).length := by
    rw [List.length_append, htag_len]
    omega
  rw [harith, List.take_left, List.drop_left]
  rw [if_pos rfl]
  rw [hct_len]
  rw [xorBytes_cancel _ _ hks_len.symm]
  simp [utf8_round_trip hpv]

theorem demoCipher_good : goodCipher demoCipher := by
  constructor
  · intro key block h
    simp [demoCipher, h]
  · intro key block x hx
    simp only [demoCipher, List.mem_map] at hx
    obtain ⟨y, _, rfl⟩ := hx
    exact Nat.mod_lt _ (by omega)

-- ===== Key-derivation lemmas =====

theorem pbkdf2_fold_length (password : List Nat) :
    ∀ (l : List Nat) (acc : List Nat × List Nat), acc.1.length = 32 →
      ((l.foldl (pbkdf2Step password) acc).1).length = 32 := by
  intro l
  induction l with
  | nil => intro acc h; exact h
  | cons x xs ih =>
    intro acc h
    apply ih
    simp only [pbkdf2Step, xorBytes_length, h, hmacSha256_length]
    rfl

theorem pbkdf2Block_length (p s : List Nat) (c i : Nat) : (pbkdf2Block p s c i).length = 32 := by
  unfold pbkdf2Block
  exact pbkdf2_fold_length p _ _ (hmacSha256_length _ _)

/-- At a 32-byte output length the PBKDF2 block loop runs exactly once. -/
theorem pbkdf2Sha256_32 (p s : List Nat) (c : Nat) :
    pbkdf2Sha256 p s c 32 = pbkdf2Block p s c 1 := by
  unfold pbkdf2Sha256
  have h1 : (32 + 31) / 32 = 1 := by norm_num
  rw [h1]
  have h2 : List.range 1 = [0] := rfl
  rw [h2]
  simp only [List.map_cons, List.map_nil, List.flatten_cons, List.flatten_nil, List.append_nil,
    Nat.zero_add]
  rw [← pbkdf2Block_length p s c 1]
  exact List.take_length _

-- ===== Claim theorems =====

/-- C1 counterexample: the round-trip law fails at the empty string — the
claim includes empty plaintext, but `encryptData` rejects it with
`'Plaintext data is required'` before any cryptographic operation, so
`decryptData(encryptData("", k), k)` cannot return `""` for any key. -/
theorem C1_empty_plaintext_cex :
    encryptData demoCipher iv0 [] key0 = Except.error (JsError.error msgPlaintextRequired) := rfl

/-- C1 (amended): round-trip law of the authenticated cipher for all
NON-EMPTY plaintext strings and all valid 256-bit keys — for every
well-formed block cipher, decrypting the output of `encryptData` under
the same key returns exactly the original plaintext. -/
theorem C1_round_trip (E : BlockCipher) (hE : goodCipher E) (p : Str) (hp : p ≠ [])
    (hpv : validStr p) (kb iv : List Nat) (hkl : kb.length = 32) (hkb : isBytes kb)
    (hivl : iv.length = 12) (hivb : isBytes iv) :
    ∃ rec, encryptData E iv p (b64encode kb) = Except.ok rec ∧
      decryptData E rec (b64encode kb) = Except.ok p :=
  ⟨_, encryptData_eq hE hp hkl hkb hivl,
    decrypt_encrypt_core hE hp hpv hkl hkb hivl hivb (encryptData_eq hE hp hkl hkb hivl)⟩

/-- C1 witness: the round trip at concrete inputs. -/
theorem C1_round_trip_witness :
    ∃ rec, encryptData demoCipher iv0 hello key0 = Except.ok rec ∧
      decryptData demoCipher rec key0 = Except.ok hello :=
  C1_round_trip demoCipher demoCipher_good hello (by decide) (by decide) kb0 iv0 (by decide)
    (by decide) (by decide) (by decide)

/-- C2: `deriveEncryptionKey` equals the spec's reference definition —
base64 of the 256-bit PBKDF2-SHA256 output at exactly 100,000 iterations
with the UTF-8 password bytes and the UTF-8 account-id bytes as salt —
and is a pure function (identical inputs give identical output). -/
theorem C2_derive_matches_spec (pw acct : Str) (h8 : 8 ≤ pw.length) (hid : acct ≠ []) :
    deriveEncryptionKey pw acct = Except.ok (deriveSpec pw acct) ∧
    deriveEncryptionKey pw acct = deriveEncryptionKey pw acct := by
  refine ⟨?_, rfl⟩
  unfold deriveEncryptionKey
  rw [if_neg (by
      push_neg
      exact ⟨by intro h; rw [h] at h8; simp at h8, by omega⟩),
    if_neg hid]
  unfold deriveSpec
  simp only [PBKDF2_ITERATIONS, KEY_LENGTH]
  rw [pbkdf2Sha256_32]

/-- C2 witness: the reference equality at concrete inputs. -/
theorem C2_derive_matches_spec_witness :
    deriveEncryptionKey pwA uid0 = Except.ok (deriveSpec pwA uid0) ∧
    deriveEncryptionKey pwA uid0 = deriveEncryptionKey pwA uid0 :=
  C2_derive_matches_spec pwA uid0 (by decide) (by decide)

/-- C3: every call of `encryptData` returns as `iv` exactly the base64 of
the 12 bytes drawn from the random source during that call, so distinct
draws give records with pairwise-distinct nonce fields, each of which
decrypts back to the plaintext. -/
theorem C3_nonce_freshness (E : BlockCipher) (hE : goodCipher E) (p : Str) (hp : p ≠ [])
    (hpv : validStr p) (kb : List Nat) (hkl : kb.length = 32) (hkb : isBytes kb)
    (draws : List (List Nat)) (hd : ∀ d ∈ draws, d.length = 12 ∧ isBytes d)
    (hdist : draws.Pairwise (· ≠ ·)) :
    (∀ d ∈ draws, ∃ rec, encryptData E d p (b64encode kb) = Except.ok rec ∧
        rec.iv = bytesToBase64 d ∧ decryptData E rec (b64encode kb) = Except.ok p) ∧
    (draws.map
      (fun d => (encryptData E d p (b64encode kb)).toOption.map EncryptedData.iv)).Pairwise
        (· ≠ ·) := by
  constructor
  · intro d hdm
    obtain ⟨hdl, hdb⟩ := hd d hdm
    exact ⟨_, encryptData_eq hE hp hkl hkb hdl, rfl,
      decrypt_encrypt_core hE hp hpv hkl hkb hdl hdb (encryptData_eq hE hp hkl hkb hdl)⟩
  · rw [List.pairwise_map]
    refine List.Pairwise.imp_of_mem ?_ hdist
    intro d1 d2 h1m h2m hne
    obtain ⟨h1l, h1b⟩ := hd d1 h1m
    obtain ⟨h2l, h2b⟩ := hd d2 h2m
    rw [encryptData_eq hE hp hkl hkb h1l, encryptData_eq hE hp hkl hkb h2l]
    intro h
    simp only [Except.toOption, Option.map_some] at h
    injection h with h
    exact hne (b64encode_inj h1b h2b h)

/-- C3 witness: two distinct concrete draws give distinct nonces. -/
theorem C3_nonce_freshness_witness :
    (∀ d ∈ [iv0, iv1], ∃ rec, encryptData demoCipher d hello (b64encode kb0) = Except.ok rec ∧
        rec.iv = bytesToBase64 d ∧ decryptData demoCipher rec (b64encode kb0) = Except.ok hello) ∧
    ([iv0, iv1].map
      (fun d => (encryptData demoCipher d hello (b64encode kb0)).toOption.map
        EncryptedData.iv)).Pairwise (· ≠ ·) :=
  C3_nonce_freshness demoCipher demoCipher_good hello (by decide) (by decide) kb0 (by decide)
    (by decide) [iv0, iv1] (by decide) (by decide)

/-- C4: after `lockApp` the key reads as absent while the account context
is retained; after `logout` the key, the account context and both tokens
all read as absent. -/
theorem C4_lock_logout_clear_key (st : AuthState) :
    (lockApp st).1.encryptionKey = none ∧ (lockApp st).1.user = st.user ∧
    (lockApp st).1.accessToken = st.accessToken ∧
    (lockApp st).1.refreshToken = st.refreshToken ∧
    (lockApp st).1.isAuthenticated = st.isAuthenticated ∧
    (logout st).1.encryptionKey = none ∧ (logout st).1.user = none ∧
    (logout st).1.accessToken = none ∧ (logout st).1.refreshToken = none :=
  ⟨rfl, rfl, rfl, rfl, rfl, rfl, rfl, rfl, rfl⟩

theorem saveTokens_safe (a r : Str) :
    ∀ op ∈ saveTokens a r, carriesDerivedKey op = false ∧ allowedWrite op = true := by
  intro op hop
  simp only [saveTokens, List.mem_cons, List.not_mem_nil, or_false] at hop
  rcases hop with rfl | rfl <;> exact ⟨rfl, rfl⟩

theorem clearTokens_safe :
    ∀ op ∈ clearTokens, carriesDerivedKey op = false ∧ allowedWrite op = true := by
  intro op hop
  simp only [clearTokens, List.mem_cons, List.not_mem_nil, or_false] at hop
  rcases hop with rfl | rfl <;> exact ⟨rfl, rfl⟩

theorem authServiceWrites_safe (resp : Option AuthResponse) :
    ∀ op ∈ authServiceWrites resp, carriesDerivedKey op = false ∧ allowedWrite op = true := by
  cases resp with
  | none => intro op hop; cases hop
  | some a => exact saveTokens_safe a.accessToken a.refreshToken

theorem login_writes (resp : Option AuthResponse) (pw : Str) (st : AuthState) :
    (login resp pw st).2 = authServiceWrites resp := by
  cases resp with
  | none => rfl
  | some a => cases h : deriveEncryptionKey pw a.userId <;> simp [login, h]

theorem unlockApp_writes (pw : Str) (st : AuthState) : (unlockApp pw st).2.1 = [] := by
  cases hu : st.user with
  | none => simp [unlockApp, hu]
  | some u => cases h : deriveEncryptionKey pw u.id <;> simp [unlockApp, hu, h]

/-- C5: across the whole modelled key lifecycle and the surrounding unlock
flow, no secure-store mutation ever carries the derived encryption key —
every write is a bearer token, the device identifier, or (only under the
biometric opt-in flag) the master password. -/
theorem C5_key_never_persisted :
    (∀ resp pw st, ∀ op ∈ (login resp pw st).2,
      carriesDerivedKey op = false ∧ allowedWrite op = true) ∧
    (∀ resp pw st, ∀ op ∈ (register resp pw st).2,
      carriesDerivedKey op = false ∧ allowedWrite op = true) ∧
    (∀ st, ∀ op ∈ (logout st).2, carriesDerivedKey op = false ∧ allowedWrite op = true) ∧
    (∀ a r st, ∀ op ∈ (loadSession a r st).2,
      carriesDerivedKey op = false ∧ allowedWrite op = true) ∧
    (∀ st, ∀ op ∈ (lockApp st).2, carriesDerivedKey op = false ∧ allowedWrite op = true) ∧
    (∀ pw st, ∀ op ∈ (unlockApp pw st).2.1,
      carriesDerivedKey op = false ∧ allowedWrite op = true) ∧
    (∀ pw b st, ∀ op ∈ (handleUnlock pw b st).2,
      carriesDerivedKey op = false ∧ allowedWrite op = true) ∧
    (∀ stored fresh, ∀ op ∈ (getDeviceId stored fresh).2,
      carriesDerivedKey op = false ∧ allowedWrite op = true) ∧
    (∀ pw st, (handleUnlock pw false st).2 = []) := by
  refine ⟨?_, ?_, ?_, ?_, ?_, ?_, ?_, ?_, ?_⟩
  · intro resp pw st op hop
    rw [login_writes] at hop
    exact authServiceWrites_safe resp op hop
  · intro resp pw st op hop
    cases resp with
    | none => cases hop
    | some a =>
      rcases h : deriveEncryptionKey pw a.userId with e | k
      · rw [show (register (some a) pw st).2 = authServiceWrites (some a) by
          simp [register, h]] at hop
        exact authServiceWrites_safe _ op hop
      · rw [show (register (some a) pw st).2 =
            authServiceWrites (some a) ++ saveTokens a.accessToken a.refreshToken by
          simp [register, h]] at hop
        rcases List.mem_append.mp hop with hmem | hmem
        · exact authServiceWrites_safe _ op hmem
        · exact saveTokens_safe _ _ op hmem
  · intro st op hop
    rcases List.mem_append.mp hop with hmem | hmem
    · exact clearTokens_safe op hmem
    · exact clearTokens_safe op hmem
  · intro a r st op hop
    cases a <;> cases r <;> cases hop
  · intro st op hop
    cases hop
  · intro pw st op hop
    rw [unlockApp_writes] at hop
    cases hop
  · intro pw b st op hop
    simp only [handleUnlock] at hop
    by_cases hpw : pw = []
    · rw [if_pos hpw] at hop
      cases hop
    · rw [if_neg hpw] at hop
      rcases hr : (unlockApp pw st).2.2 with e | u
      · rw [hr] at hop
        simp only [unlockApp_writes] at hop
        cases hop
      · rw [hr] at hop
        simp only [unlockApp_writes, List.nil_append] at hop
        cases b with
        | false => simp only [Bool.false_eq_true, if_false] at hop; cases hop
        | true =>
          simp only [if_true] at hop
          simp only [List.mem_singleton] at hop
          subst hop
          exact ⟨rfl, rfl⟩
  · intro stored fresh op hop
    cases stored with
    | some d => cases hop
    | none =>
      simp only [getDeviceId, List.mem_singleton] at hop
      subst hop
      exact ⟨rfl, rfl⟩
  · intro pw st
    simp only [handleUnlock]
    by_cases hpw : pw = []
    · rw [if_pos hpw]
    · rw [if_neg hpw]
      rcases hr : (unlockApp pw st).2.2 with e | u <;> simp [unlockApp_writes]

/-- C5 witness: a concrete allowed token write from `login`, and the
unlock flow writing nothing without the biometric opt-in. -/
theorem C5_key_never_persisted_witness :
    (carriesDerivedKey (SecureOp.write ACCESS_TOKEN_KEY (StoredValue.bearerAccess tokA)) = false ∧
      allowedWrite (SecureOp.write ACCESS_TOKEN_KEY (StoredValue.bearerAccess tokA)) = true) ∧
    (handleUnlock pwB false stLocked).2 = [] :=
  ⟨C5_key_never_persisted.1 (some resp0) pwA initialAuthState _ (by decide),
   C5_key_never_persisted.2.2.2.2.2.2.2.2 pwB stLocked⟩

/-- C6 counterexample: a record that decrypts successfully to the
non-JSON text `"hello"` makes `decryptObject` fail with the `SyntaxError`
of `JSON.parse` — a failure class distinct from the opaque
decryption-failure error, contradicting the claim that every failure of
`decryptObject` is the single opaque class. -/
theorem C6_parse_failure_cex :
    decryptData demoCipher rec6 key0 = Except.ok hello ∧
    jsonParse hello = none ∧
    decryptObject demoCipher rec6 key0 = Except.error JsError.parseError ∧
    JsError.parseError ≠ JsError.error msgDecryptionFailed :=
  ⟨rfl, rfl, rfl, by decide⟩

/-- C6 (amended): failures of the cipher itself (authentication failure
under any key and record) are reported by `decryptObject` as the one
opaque decryption-failure error, but when decryption succeeds and the
plaintext fails to parse as JSON the failure surfaces as a distinct
`SyntaxError`. -/
theorem C6_opaque_cipher_failures :
    (∀ (E : BlockCipher) (enc : EncryptedData) (key : Str),
      ¬(enc.encryptedData = [] ∨ enc.iv = [] ∨ enc.authTag = []) → key ≠ [] →
      (base64ToBytes key).length = 32 →
      aesGcmDecrypt E (base64ToBytes key) (base64ToBytes enc.iv)
        (base64ToBytes enc.encryptedData ++ base64ToBytes enc.authTag) = none →
      decryptObject E enc key = Except.error (JsError.error msgDecryptionFailed)) ∧
    (∀ (E : BlockCipher) (enc : EncryptedData) (key : Str) (s : Str),
      decryptData E enc key = Except.ok s → jsonParse s = none →
      decryptObject E enc key = Except.error JsError.parseError) := by
  constructor
  · intro E enc key h1 h2 h3 h4
    simp only [decryptObject, decryptData]
    rw [if_neg h1, if_neg h2, if_neg (by rw [h3]; exact fun h => h rfl)]
    rw [h4]
  · intro E enc key s hok hparse
    unfold decryptObject
    rw [hok]
    show (match jsonParse s with
      | some j => Except.ok j
      | none => Except.error JsError.parseError) = Except.error JsError.parseError
    rw [hparse]

/-- C6 witness: the amended theorem at concrete records — a tampered tag
gives the opaque error, a non-JSON plaintext gives the parse error. -/
theorem C6_opaque_cipher_failures_witness :
    decryptObject demoCipher rec6bad key0 = Except.error (JsError.error msgDecryptionFailed) ∧
    decryptObject demoCipher rec6 key0 = Except.error JsError.parseError :=
  ⟨C6_opaque_cipher_failures.1 demoCipher rec6bad key0 (by decide) (by decide) (by decide) rfl,
   C6_opaque_cipher_failures.2 demoCipher rec6 key0 hello rfl rfl⟩

/-- C7 counterexample: from an authenticated locked state, `unlockApp`
with a well-formed but different (hence incorrect) master password
reports success and installs a key — the state does not stay locked and
no failure is reported, contradicting the claimed sentinel verification. -/
theorem C7_wrong_password_unlocks_cex :
    pwB ≠ pwA ∧
    stLocked.encryptionKey = none ∧
    stLocked.user = some ⟨uid0, email0, none, none⟩ ∧
    (unlockApp pwB stLocked).2.2 = Except.ok () ∧
    ((unlockApp pwB stLocked).1.encryptionKey).isSome = true ∧
    (unlockApp pwB stLocked).1.error = none :=
  ⟨by decide, rfl, rfl, rfl, rfl, rfl⟩

/-- C7 (amended): `unlockApp` performs no password verification — with an
active session and any well-formed (length at least 8) master password,
correct or not, it succeeds and installs the re-derived key; calling
`verifyMasterPassword` is left to later decryptions. -/
theorem C7_unlock_without_verification (pw : Str) (st : AuthState) (u : User)
    (hu : st.user = some u) (h8 : 8 ≤ pw.length) (hid : u.id ≠ []) :
    (unlockApp pw st).2.2 = Except.ok () ∧
    (unlockApp pw st).1.encryptionKey =
      some (bytesToBase64 (pbkdf2Sha256 (textEncode pw) (textEncode u.id)
        PBKDF2_ITERATIONS KEY_LENGTH)) := by
  have hd : deriveEncryptionKey pw u.id = Except.ok (bytesToBase64
      (pbkdf2Sha256 (textEncode pw) (textEncode u.id) PBKDF2_ITERATIONS KEY_LENGTH)) := by
    unfold deriveEncryptionKey
    rw [if_neg (by
        push_neg
        exact ⟨by intro h; rw [h] at h8; simp at h8, by omega⟩),
      if_neg hid]
  simp only [unlockApp, hu]
  rw [hd]
  exact ⟨rfl, rfl⟩

/-- C7 amended-claim witness at a concrete locked state and password. -/
theorem C7_unlock_without_verification_witness :
    (unlockApp pwB stLocked).2.2 = Except.ok () ∧
    (unlockApp pwB stLocked).1.encryptionKey =
      some (bytesToBase64 (pbkdf2Sha256 (textEncode pwB) (textEncode uid0)
        PBKDF2_ITERATIONS KEY_LENGTH)) :=
  C7_unlock_without_verification pwB stLocked ⟨uid0, email0, none, none⟩ rfl (by decide)
    (by decide)

/-- C8: `loadSession` with persisted tokens restores the tokens and the
authenticated flag with no key resident, but does NOT restore the account
context (`user` stays `none`), so the subsequent `unlockApp` — which the
restored-session design requires to be possible — always throws
`'No active session'` and no key can ever be installed after a restart. -/
theorem C8_restore_session_loses_user :
    (loadSession (some tokA) (some tokR) initialAuthState).1.accessToken = some tokA ∧
    (loadSession (some tokA) (some tokR) initialAuthState).1.refreshToken = some tokR ∧
    (loadSession (some tokA) (some tokR) initialAuthState).1.isAuthenticated = true ∧
    (loadSession (some tokA) (some tokR) initialAuthState).1.encryptionKey = none ∧
    (loadSession (some tokA) (some tokR) initialAuthState).1.user = none ∧
    (unlockApp pwA (loadSession (some tokA) (some tokR) initialAuthState).1).2.2 =
      Except.error "No active session" ∧
    (unlockApp pwA (loadSession (some tokA) (some tokR) initialAuthState).1).1.encryptionKey =
      none :=
  ⟨rfl, rfl, rfl, rfl, rfl, rfl, rfl⟩

/-- C9: `deriveEncryptionKey` fails with its `InvalidInput` errors exactly
when the master password is shorter than 8 scalar values (the empty
string included) or the account id is empty, and `derive("short",
"user-1")` fails with the short-password error. -/
theorem C9_derive_input_validation :
    (∀ pw acct : Str,
      (∃ e, deriveEncryptionKey pw acct = Except.error e ∧
        (e = msgShortPassword ∨ e = msgNoUserId)) ↔ (pw.length < 8 ∨ acct = [])) ∧
    deriveEncryptionKey pwShort uid1 = Except.error msgShortPassword := by
  constructor
  · intro pw acct
    constructor
    · rintro ⟨e, he, _⟩
      by_contra hcon
      push_neg at hcon
      obtain ⟨h8, hid⟩ := hcon
      unfold deriveEncryptionKey at he
      rw [if_neg (by
          push_neg
          exact ⟨by intro h; rw [h] at h8; simp at h8, by omega⟩),
        if_neg hid] at he
      exact absurd he (by simp)
    · intro h
      by_cases h8 : pw.length < 8
      · exact ⟨msgShortPassword,
          by unfold deriveEncryptionKey; rw [if_pos (Or.inr h8)], Or.inl rfl⟩
      · have hid : acct = [] := by tauto
        refine ⟨msgNoUserId, ?_, Or.inr rfl⟩
        unfold deriveEncryptionKey
        rw [if_neg (by
            push_neg
            refine ⟨?_, by omega⟩
            intro hh
            rw [hh] at h8
            simp at h8),
          if_pos hid]
  · rfl

/-- C10: `encryptData` rejects empty plaintext before touching any
cryptography and both functions reject an empty key; `decryptData`
reports the distinct `'Invalid encrypted data structure'` error whenever
any record field is empty. -/
theorem C10_cipher_input_validation :
    (∀ (E : BlockCipher) (iv : List Nat) (k : Str),
      encryptData E iv [] k = Except.error (JsError.error msgPlaintextRequired)) ∧
    (∀ (E : BlockCipher) (iv : List Nat) (p : Str), p ≠ [] →
      encryptData E iv p [] = Except.error (JsError.error msgKeyRequired)) ∧
    (∀ (E : BlockCipher) (enc : EncryptedData) (k : Str),
      (enc.encryptedData = [] ∨ enc.iv = [] ∨ enc.authTag = []) →
      decryptData E enc k = Except.error (JsError.error msgInvalidStructure)) ∧
    (∀ (E : BlockCipher) (enc : EncryptedData),
      ¬(enc.encryptedData = [] ∨ enc.iv = [] ∨ enc.authTag = []) →
      decryptData E enc [] = Except.error (JsError.error msgKeyRequired)) ∧
    msgInvalidStructure ≠ msgDecryptionFailed := by
  refine ⟨?_, ?_, ?_, ?_, by decide⟩
  · intro E iv k
    rfl
  · intro E iv p hp
    unfold encryptData
    rw [if_neg hp, if_pos rfl]
  · intro E enc k h
    unfold decryptData
    rw [if_pos h]
  · intro E enc h
    unfold decryptData
    rw [if_neg h, if_pos rfl]

/-- C10 witness: each validation error at concrete inputs. -/
theorem C10_cipher_input_validation_witness :
    encryptData demoCipher iv0 [] key0 = Except.error (JsError.error msgPlaintextRequired) ∧
    encryptData demoCipher iv0 hello [] = Except.error (JsError.error msgKeyRequired) ∧
    decryptData demoCipher ⟨[], rec6.iv, rec6.authTag⟩ key0 =
      Except.error (JsError.error msgInvalidStructure) ∧
    decryptData demoCipher rec6 [] = Except.error (JsError.error msgKeyRequired) :=
  ⟨C10_cipher_input_validation.1 demoCipher iv0 key0,
   C10_cipher_input_validation.2.1 demoCipher iv0 hello (by decide),
   C10_cipher_input_validation.2.2.1 demoCipher ⟨[], rec6.iv, rec6.authTag⟩ key0 (Or.inl rfl),
   C10_cipher_input_validation.2.2.2.1 demoCipher rec6 (by decide)⟩
